import Mathlib

/-!
Verification of the Express payment/Zoom server (`server.js`).

Shallow embedding conventions:
* raw request bodies, secrets and digests are byte lists (`List Nat`, each element `< 256`);
* header strings are `List Char`;
* the Firestore `enrollments` collection is a `List Enrollment` keyed by `enrollmentId`
  (Firestore document ids are the generated enrollment ids);
* external collaborators (Razorpay order creation, `JSON.parse`, Zoom HTTP responses,
  OAuth token acquisition) are parameters of the embedded operations;
* `crypto.createHmac('sha256', secret).update(body).digest('hex')` is embedded by an
  executable HMAC-SHA-256 (FIPS 180-4 / RFC 2104) over byte lists;
* `Buffer.from(s, 'hex')` is embedded by `hexDecodeLenient`, reproducing Node's
  documented behaviour: case-insensitive pairs, decoding stops at the first
  invalid or incomplete pair;
* `String.prototype.replace('sha256=', '')` is embedded by `replaceFirst`,
  which removes the first occurrence of the pattern anywhere in the string
  (JavaScript `replace` with a string pattern is not anchored at the front);
* `crypto.timingSafeEqual` is embedded by `timingSafeEq`, which returns `none`
  (the thrown `RangeError`) on length mismatch.
-/

namespace PaymentServer

set_option maxRecDepth 100000

/-! ## Bytes, hex encoding and lenient hex decoding -/

/-- ASCII bytes of a string (all concrete inputs used here are ASCII). -/
def strBytes (s : String) : List Nat :=
  s.data.map Char.toNat

/-- Lowercase hex digit for a value `< 16` (Node `digest('hex')` is lowercase). -/
def hexDigit (n : Nat) : Char :=
  if n < 10 then Char.ofNat (48 + n) else Char.ofNat (87 + n)

/-- Hex encoding of a byte list, two lowercase digits per byte. -/
def bytesToHex (bs : List Nat) : List Char :=
  (bs.map (fun b => [hexDigit (b / 16), hexDigit (b % 16)])).flatten

/-- Value of one hex digit; Node's hex decoder accepts both cases. -/
def hexVal (c : Char) : Option Nat :=
  if '0' ≤ c ∧ c ≤ '9' then some (c.toNat - 48)
  else if 'a' ≤ c ∧ c ≤ 'f' then some (c.toNat - 87)
  else if 'A' ≤ c ∧ c ≤ 'F' then some (c.toNat - 55)
  else none

/-- `Buffer.from(s, 'hex')`: decode pairs of hex digits, stopping at the first
invalid pair; a trailing lone digit is dropped. -/
def hexDecodeLenient : List Char → List Nat
  | c1 :: c2 :: rest =>
    match hexVal c1, hexVal c2 with
    | some h, some l => (16 * h + l) :: hexDecodeLenient rest
    | _, _ => []
  | _ => []

/-! ## SHA-256 (FIPS 180-4) over byte lists, words as `Nat` reduced mod `2^32` -/

/-- Reduce to a 32-bit word. -/
def w32 (n : Nat) : Nat := n % 4294967296

/-- Right rotation of a 32-bit word. -/
def rotr32 (n w : Nat) : Nat := w32 ((w >>> n) ||| (w <<< (32 - n)))

/-- Bitwise complement of a 32-bit word. -/
def bnot32 (w : Nat) : Nat := Nat.xor w 4294967295

def shaCh (x y z : Nat) : Nat := Nat.xor (Nat.land x y) (Nat.land (bnot32 x) z)

def shaMaj (x y z : Nat) : Nat :=
  Nat.xor (Nat.xor (Nat.land x y) (Nat.land x z)) (Nat.land y z)

def bigSigma0 (x : Nat) : Nat := Nat.xor (Nat.xor (rotr32 2 x) (rotr32 13 x)) (rotr32 22 x)

def bigSigma1 (x : Nat) : Nat := Nat.xor (Nat.xor (rotr32 6 x) (rotr32 11 x)) (rotr32 25 x)

def smallSigma0 (x : Nat) : Nat := Nat.xor (Nat.xor (rotr32 7 x) (rotr32 18 x)) (x >>> 3)

def smallSigma1 (x : Nat) : Nat := Nat.xor (Nat.xor (rotr32 17 x) (rotr32 19 x)) (x >>> 10)

/-- SHA-256 round constants (FIPS 180-4 section 4.2.2, written in decimal). -/
def shaK : List Nat :=
  [1116352408, 1899447441, 3049323471, 3921009573, 961987163, 1508970993,
   2453635748, 2870763221, 3624381080, 310598401, 607225278, 1426881987,
   1925078388, 2162078206, 2614888103, 3248222580, 3835390401, 4022224774,
   264347078, 604807628, 770255983, 1249150122, 1555081692, 1996064986,
   2554220882, 2821834349, 2952996808, 3210313671, 3336571891, 3584528711,
   113926993, 338241895, 666307205, 773529912, 1294757372, 1396182291,
   1695183700, 1986661051, 2177026350, 2456956037, 2730485921, 2820302411,
   3259730800, 3345764771, 3516065817, 3600352804, 4094571909, 275423344,
   430227734, 506948616, 659060556, 883997877, 958139571, 1322822218,
   1537002063, 1747873779, 1955562222, 2024104815, 2227730452, 2361852424,
   2428436474, 2756734187, 3204031479, 3329325298]

/-- SHA-256 initial hash value (FIPS 180-4 section 5.3.3, written in decimal). -/
def shaH0 : List Nat :=
  [1779033703, 3144134277, 1013904242, 2773480762,
   1359893119, 2600822924, 528734635, 1541459225]

/-- Big-endian 8-byte length field (length in bits). -/
def lenBytes (bits : Nat) : List Nat :=
  (List.range 8).map (fun i => bits / 2 ^ (8 * (7 - i)) % 256)

/-- Pad a message to a multiple of 64 bytes: `0x80`, zeros, 64-bit bit length. -/
def padMessage (msg : List Nat) : List Nat :=
  let n := msg.length
  let k := (120 - (n + 1) % 64) % 64
  msg ++ [128] ++ List.replicate k 0 ++ lenBytes (8 * n)

/-- Group bytes into big-endian 32-bit words. -/
def toWords : List Nat → List Nat
  | b0 :: b1 :: b2 :: b3 :: rest =>
    (b0 * 16777216 + b1 * 65536 + b2 * 256 + b3) :: toWords rest
  | _ => []

/-- Split a padded byte string into 16-word blocks; the fuel argument (bounded
below by the number of blocks) makes the recursion structural. -/
def toBlocksAux : Nat → List Nat → List (List Nat)
  | _, [] => []
  | 0, _ => []
  | fuel + 1, l => toWords (l.take 64) :: toBlocksAux fuel (l.drop 64)

/-- Split a padded byte string into 16-word blocks. -/
def toBlocks (l : List Nat) : List (List Nat) :=
  toBlocksAux l.length l

/-- Extend the 16-word block to the 64-word message schedule. -/
def buildW (w : List Nat) : Nat → List Nat
  | 0 => w
  | fuel + 1 =>
    let n := w.length
    let wt := w32 (smallSigma1 (w.getD (n - 2) 0) + w.getD (n - 7) 0 +
      smallSigma0 (w.getD (n - 15) 0) + w.getD (n - 16) 0)
    buildW (w ++ [wt]) fuel

/-- One SHA-256 compression round on the state `[a,b,c,d,e,f,g,h]`. -/
def compressRound (k wt : Nat) (st : List Nat) : List Nat :=
  match st with
  | [a, b, c, d, e, f, g, h] =>
    let t1 := w32 (h + bigSigma1 e + shaCh e f g + k + wt)
    let t2 := w32 (bigSigma0 a + shaMaj a b c)
    [w32 (t1 + t2), a, b, c, w32 (d + t1), e, f, g]
  | _ => st

/-- Compress one block into the running hash. -/
def compressBlock (hs block : List Nat) : List Nat :=
  let ws := buildW block 48
  let st := (List.zip shaK ws).foldl (fun st kw => compressRound kw.1 kw.2 st) hs
  (List.zip hs st).map (fun p => w32 (p.1 + p.2))

/-- Big-endian bytes of a 32-bit word. -/
def wordBytes (w : Nat) : List Nat :=
  [w / 16777216 % 256, w / 65536 % 256, w / 256 % 256, w % 256]

/-- SHA-256 digest (32 bytes) of a byte list. -/
def sha256 (msg : List Nat) : List Nat :=
  let hs := (toBlocks (padMessage msg)).foldl compressBlock shaH0
  (hs.map wordBytes).flatten

/-- HMAC-SHA-256 (RFC 2104), as computed by `crypto.createHmac('sha256', key)`. -/
def hmacSha256 (key msg : List Nat) : List Nat :=
  let k0 := if 64 < key.length then sha256 key else key
  let kp := k0 ++ List.replicate (64 - k0.length) 0
  let inner := sha256 (kp.map (fun b => Nat.xor b 54) ++ msg)
  sha256 (kp.map (fun b => Nat.xor b 92) ++ inner)

/-! ## `verifyWebhookSignature` -/

/-- The pattern `'sha256='` passed to `String.prototype.replace`. -/
def sigPat : List Char := "sha256=".data

/-- Does `s` start with `pat`? -/
def hasPre : List Char → List Char → Bool
  | [], _ => true
  | _ :: _, [] => false
  | p :: ps, c :: cs => p = c && hasPre ps cs

/-- JavaScript `s.replace(pat, '')` for a string pattern: remove the first
occurrence of `pat` anywhere in `s`; `s` unchanged when `pat` does not occur. -/
def replaceFirst (pat : List Char) : List Char → List Char
  | [] => []
  | c :: rest =>
    if hasPre pat (c :: rest) then (c :: rest).drop pat.length
    else c :: replaceFirst pat rest

/-- `crypto.timingSafeEqual`: `none` models the `RangeError` thrown on length
mismatch; otherwise byte-list equality. -/
def timingSafeEq (a b : List Nat) : Option Bool :=
  if a.length = b.length then some (a == b) else none

/-- `verifyWebhookSignature(body, signature, secret)`: recompute the hex HMAC
digest, strip the first `'sha256='` occurrence from the header, hex-decode both
sides with Node's lenient decoder and compare; the `try/catch` turns the
length-mismatch exception into `false`. -/
def verifyWebhookSignature (body : List Nat) (signature : List Char) (secret : List Nat) : Bool :=
  let expectedSignature := bytesToHex (hmacSha256 secret body)
  let actualSignature := replaceFirst sigPat signature
  match timingSafeEq (hexDecodeLenient expectedSignature) (hexDecodeLenient actualSignature) with
  | some b => b
  | none => false

/-! ## Data model: enrollments and webhook events

A parsed `payment.captured` payload carries `payload.payment.entity` with the
fields the handler reads: `id`, `order_id`, `method` and `notes.enrollmentId`.
`payment = none` models an event object without that entity chain (accessing it
throws a `TypeError`, caught by the route's outer `try/catch`).
Firestore `arrayUnion` deduplicates by deep value equality, hence the derived
decidable equality on events. -/

structure PaymentEntity where
  id : String
  order_id : String
  method : Option String
  notesEnrollmentId : Option String
deriving DecidableEq, Repr

structure WebhookEvent where
  event : String
  payment : Option PaymentEntity
deriving DecidableEq, Repr

/-- One document of the `enrollments` collection. `createdAt`/`updatedAt` hold
the value of `FieldValue.serverTimestamp()` at write time, supplied to the
embedded operations as an explicit `now` parameter. -/
structure Enrollment where
  enrollmentId : String
  userId : String
  courseId : String
  amount : Int
  currency : String
  customerEmail : String
  customerContact : Option String
  razorpayOrderId : String
  razorpayPaymentId : Option String
  paymentMethod : Option String
  signature : Option (List Char)
  status : String
  notes : List (String × String)
  createdAt : Nat
  updatedAt : Nat
  rawWebhookEvents : List WebhookEvent
deriving DecidableEq, Repr

/-- The `enrollments` collection; document id = `enrollmentId` field. -/
abbrev Store := List Enrollment

/-- `adminDb.collection('enrollments').doc(id).get()` (`none` = `!doc.exists`). -/
def docGet (store : Store) (id : String) : Option Enrollment :=
  store.find? (fun d => d.enrollmentId = id)

/-- `.where('razorpayOrderId','==',orderId).limit(1).get()`. -/
def queryByOrderId (store : Store) (orderId : String) : Option Enrollment :=
  store.find? (fun d => d.razorpayOrderId = orderId)

/-- `.doc(id).set(data)`: overwrite the document if it exists, else create it. -/
def setDoc (store : Store) (id : String) (e : Enrollment) : Store :=
  if store.any (fun d => d.enrollmentId = id) then
    store.map (fun d => if d.enrollmentId = id then e else d)
  else store ++ [e]

/-! ## `POST /api/payment/order` (CreateOrder) -/

/-- Request body of `POST /api/payment/order`. A `none` field is absent from
the JSON body ( `undefined` after destructuring). -/
structure OrderReq where
  userId : Option String
  courseId : Option String
  amount : Option Int
  currency : Option String
  customerEmail : Option String
  customerContact : Option String
  notes : List (String × String)
deriving DecidableEq, Repr

/-- JavaScript truthiness of an optional string (`undefined` and `''` are falsy). -/
def truthyS : Option String → Bool
  | none => false
  | some s => s ≠ ""

/-- JavaScript truthiness of an optional number (`undefined` and `0` are falsy). -/
def truthyI : Option Int → Bool
  | none => false
  | some i => i ≠ 0

/-- Successful response body of `POST /api/payment/order`. -/
structure OrderResp where
  orderId : String
  key : String
  amount : Int
  currency : String
  enrollmentId : String
deriving DecidableEq, Repr

/-- `app.post('/api/payment/order')`. Parameters standing for external
collaborators: `keyId` = `process.env.RAZORPAY_KEY_ID`; `newId` = the
`uuidv4()` draw; `providerOrder` = outcome of `razorpay.orders.create`
(`none` = the provider call throws, caught as a 500); `now` = server
timestamp. The request `amount` arrives as a JSON number, on which
`parseInt` acts as the identity, so `amount` is modelled as `Int`.
Returns (HTTP status, response body if 200, resulting store). -/
def createOrder (keyId : String) (newId : String) (providerOrder : Option String)
    (now : Nat) (store : Store) (req : OrderReq) : Nat × Option OrderResp × Store :=
  if ¬(truthyS req.userId ∧ truthyS req.courseId ∧ truthyI req.amount ∧
      truthyS req.customerEmail) then
    (400, none, store)
  else
    match providerOrder with
    | none => (500, none, store)
    | some orderId =>
      let amt := req.amount.getD 0
      let cur := (req.currency).getD "INR"
      let enrollment : Enrollment :=
        { enrollmentId := newId
          userId := (req.userId).getD ""
          courseId := (req.courseId).getD ""
          amount := amt
          currency := cur
          customerEmail := (req.customerEmail).getD ""
          customerContact :=
            match req.customerContact with
            | some c => if c ≠ "" then some c else none
            | none => none
          razorpayOrderId := orderId
          razorpayPaymentId := none
          paymentMethod := none
          signature := none
          status := "Pending"
          notes := req.notes
          createdAt := now
          updatedAt := now
          rawWebhookEvents := [] }
      (200, some { orderId := orderId, key := keyId, amount := amt, currency := cur,
                   enrollmentId := newId },
       setDoc store newId enrollment)

/-! ## `POST /api/payment/webhook` (HandleWebhook) -/

/-- Resolution of the target enrollment from the payment's notes: the branch
`if (payment.notes && payment.notes.enrollmentId)` followed by a document get
(JS truthiness: an absent notes object or an empty-string id skips the branch). -/
def resolveByNotes (store : Store) (p : PaymentEntity) : Option Enrollment :=
  match p.notesEnrollmentId with
  | some eid => if eid ≠ "" then docGet store eid else none
  | none => none

/-- Full enrollment resolution: notes id first, then the
`razorpayOrderId` query fallback. -/
def resolveEnrollment (store : Store) (p : PaymentEntity) : Option Enrollment :=
  match resolveByNotes store p with
  | some d => some d
  | none => queryByOrderId store p.order_id

/-- The `updateData` written by the webhook handler on a resolved enrollment:
status `Paid`, payment id/method, raw signature header, server timestamp, and
`FieldValue.arrayUnion(event)` (set union keyed by deep event equality). -/
def applyCapture (ev : WebhookEvent) (p : PaymentEntity) (signature : List Char)
    (now : Nat) (e : Enrollment) : Enrollment :=
  { e with
    status := "Paid"
    razorpayPaymentId := some p.id
    paymentMethod := p.method
    signature := some signature
    updatedAt := now
    rawWebhookEvents :=
      if ev ∈ e.rawWebhookEvents then e.rawWebhookEvents else e.rawWebhookEvents ++ [ev] }

/-- `app.post('/api/payment/webhook')`. `parse` stands for
`JSON.parse(body.toString())`; `parse body = none` models a parse exception,
which the route's outer `try/catch` converts to a 500. `sigHeader = none`
models a missing `x-razorpay-signature` header. Returns (HTTP status,
resulting store). -/
def handleWebhook (secret : List Nat) (parse : List Nat → Option WebhookEvent)
    (now : Nat) (store : Store) (sigHeader : Option (List Char)) (body : List Nat) :
    Nat × Store :=
  match sigHeader with
  | none => (400, store)
  | some signature =>
    if verifyWebhookSignature body signature secret then
      match parse body with
      | none => (500, store)
      | some ev =>
        if ev.event = "payment.captured" then
          match ev.payment with
          | none => (500, store)
          | some p =>
            match resolveEnrollment store p with
            | none => (404, store)
            | some d =>
              (200, store.map (fun e =>
                if e.enrollmentId = d.enrollmentId then applyCapture ev p signature now e
                else e))
        else (200, store)
    else (400, store)

/-! ## Zoom: meeting validation (`isMeetingValid`) -/

/-- Outcome of the Zoom meeting-lookup HTTP call
(`axios.get('https://api.zoom.us/v2/meetings/...')` through `zoomApiCall`):
either a success response whose body may or may not carry an `id`
(`res?.data?.id`), or a thrown error carrying the optional
`err.response.status` and `err.response.data.code`. -/
inductive LookupOutcome where
  | ok (dataId : Option String)
  | err (status : Option Nat) (code : Option Nat)
deriving DecidableEq, Repr

/-- Result of `isMeetingValid` plus which external calls it performed:
`queriedToken` = entered `getZoomAccessToken`, `queriedMeeting` = issued the
meeting-lookup request. -/
structure MeetingCheck where
  valid : Bool
  queriedToken : Bool
  queriedMeeting : Bool
deriving DecidableEq, Repr

/-- `isMeetingValid(meetingId)`. `token` is the result of
`getZoomAccessToken()` (`none` = no token, either missing credentials or a
token-endpoint failure; that function catches its own errors). `lookup` is the
outcome the meeting-lookup call would have. `meetingId = none` models a falsy
id (`undefined`/`null`/empty). -/
def isMeetingValid (token : Option String) (lookup : LookupOutcome)
    (meetingId : Option String) : MeetingCheck :=
  match meetingId with
  | none => { valid := false, queriedToken := false, queriedMeeting := false }
  | some mid =>
    if mid = "" ∨ mid = "static" then
      { valid := false, queriedToken := false, queriedMeeting := false }
    else
      match token with
      | none => { valid := false, queriedToken := true, queriedMeeting := false }
      | some _ =>
        match lookup with
        | .ok dataId =>
          { valid := (match dataId with | some s => s ≠ "" | none => false),
            queriedToken := true, queriedMeeting := true }
        | .err status code =>
          if code = some 3001 ∨ status = some 404 then
            { valid := false, queriedToken := true, queriedMeeting := true }
          else
            { valid := true, queriedToken := true, queriedMeeting := true }

/-! ## Zoom: retry logic of `zoomApiCall` -/

/-- Outcome of one attempt of the wrapped call `fn()`: success, or a rejection
carrying `err.response.status` and `err.response.data.code`. -/
inductive ZoomAttempt (α : Type) where
  | ok (v : α)
  | fail (status : Option Nat) (code : Option Nat)
deriving DecidableEq

/-- The rate-limit test `status === 429 || code === 429`. -/
def rateLimited (status code : Option Nat) : Bool :=
  status == some 429 || code == some 429

/-- Result of the promise returned by `zoomApiCall(fn, maxRetries)`, given the
outcome `attempts i` of the i-th attempt (attempts are numbered from 1, as by
the `attempt += 1` at the top of `exec`). `attempt` is the number of attempts
already made; the initial call has `attempt = 0`. A rate-limited failure with
`attempt < maxRetries` re-enqueues `exec` after a backoff, which the FIFO
worker eventually runs: that re-run is the recursive call. Any other failure
rejects with that error. -/
def zoomApiCall {α : Type} (attempts : Nat → ZoomAttempt α) (maxRetries : Nat)
    (attempt : Nat) : Except (Option Nat × Option Nat) α :=
  match attempts (attempt + 1) with
  | .ok v => .ok v
  | .fail status code =>
    if h : rateLimited status code = true ∧ attempt + 1 < maxRetries then
      zoomApiCall attempts maxRetries (attempt + 1)
    else .error (status, code)
termination_by maxRetries - attempt
decreasing_by omega

/-! ## Zoom: the rate-limited FIFO worker queue

State of the module-level queue (`zoomTaskQueue`, `zoomWorkerRunning`) and of
the event loop's pending `setTimeout(work, ...)` callbacks. Executions are
recorded as `(task id, start time, duration)`; `submitted` is the ghost list
of task ids in enqueue order. `PER_REQUEST_DELAY_MS = 400`, jitter
`Math.floor(Math.random()*120) < 120`. -/

structure ZState where
  queue : List Nat
  running : Bool
  timers : List Nat
  executed : List (Nat × Nat × Nat)
  submitted : List Nat
  now : Nat
deriving Repr

/-- The initial module state: empty queue, no worker, no timers. -/
def zInit : ZState :=
  { queue := [], running := false, timers := [], executed := [], submitted := [], now := 0 }

/-- One invocation of `work` at time `time`: shift the queue; if empty, clear
`zoomWorkerRunning` and stop; otherwise run the task (for duration `d`,
swallowing errors) and schedule the next `work` with
`setTimeout(work, 400 + j)`. -/
def workAt (time d j : Nat) (s : ZState) : ZState :=
  match s.queue with
  | [] => { s with running := false, now := time }
  | t :: rest =>
    { s with
      queue := rest
      executed := s.executed ++ [(t, time, d)]
      timers := s.timers ++ [time + d + 400 + j]
      now := time }

/-- `zoomTaskQueue.push(exec); startZoomWorkerIfNeeded()` at time `s.now`:
if a worker is already running the task just waits in the queue; otherwise the
flag is set and `work()` runs immediately. -/
def enqueueStep (t d j : Nat) (s : ZState) : ZState :=
  let s' := { s with queue := s.queue ++ [t], submitted := s.submitted ++ [t] }
  if s.running then s' else workAt s.now d j { s' with running := true }

/-- Event-loop steps: a new `zoomApiCall` enqueue at any time `te ≥ now`, or a
pending `setTimeout` callback firing at any time `tf` no earlier than both its
scheduled time and the current time. -/
inductive ZStep : ZState → ZState → Prop where
  | enq (s : ZState) (t d j te : Nat) (hj : j < 120) (hte : s.now ≤ te) :
      ZStep s (enqueueStep t d j { s with now := te })
  | fire (s : ZState) (tm tf d j : Nat) (hj : j < 120) (hmem : tm ∈ s.timers)
      (htm : tm ≤ tf) (hnow : s.now ≤ tf) :
      ZStep s (workAt tf d j { s with timers := s.timers.erase tm })

/-- States reachable from the initial module state. -/
def ZReach (s : ZState) : Prop :=
  Relation.ReflTransGen ZStep zInit s

/-! ## General lemmas about the embedded primitives -/

theorem bytesToHex_cons (b : Nat) (rest : List Nat) :
    bytesToHex (b :: rest) = hexDigit (b / 16) :: hexDigit (b % 16) :: bytesToHex rest := by
  simp [bytesToHex]

theorem bytesToHex_length (bs : List Nat) : (bytesToHex bs).length = 2 * bs.length := by
  induction bs with
  | nil => rfl
  | cons b rest ih => rw [bytesToHex_cons]; simp [ih]; omega

theorem hexVal_hexDigit (n : Nat) (h : n < 16) : hexVal (hexDigit n) = some n := by
  interval_cases n <;> decide

/-- Node's lenient hex decoder inverts the hex encoding of genuine bytes. -/
theorem hexDecode_encode (bs : List Nat) (h : ∀ b ∈ bs, b < 256) :
    hexDecodeLenient (bytesToHex bs) = bs := by
  induction bs with
  | nil => rfl
  | cons b rest ih =>
    rw [bytesToHex_cons]
    have hb : b < 256 := h b (by simp)
    have h1 : hexVal (hexDigit (b / 16)) = some (b / 16) := hexVal_hexDigit _ (by omega)
    have h2 : hexVal (hexDigit (b % 16)) = some (b % 16) := hexVal_hexDigit _ (by omega)
    have ih' := ih (fun x hx => h x (List.mem_cons_of_mem _ hx))
    simp [hexDecodeLenient, h1, h2, ih']
    omega

/-- Every element of a SHA-256 digest is a byte. -/
theorem sha256_bytes_lt (msg : List Nat) : ∀ b ∈ sha256 msg, b < 256 := by
  intro b hb
  simp only [sha256, List.mem_flatten, List.mem_map] at hb
  obtain ⟨l, ⟨w, _, rfl⟩, hbl⟩ := hb
  simp only [wordBytes, List.mem_cons, List.not_mem_nil, or_false] at hbl
  rcases hbl with rfl | rfl | rfl | rfl <;> exact Nat.mod_lt _ (by decide)

theorem hmacSha256_bytes_lt (key msg : List Nat) : ∀ b ∈ hmacSha256 key msg, b < 256 := by
  unfold hmacSha256
  exact sha256_bytes_lt _

/-- What `verifyWebhookSignature` actually accepts: the header, after removal
of the first occurrence of `'sha256='` anywhere in it, must decode (under
Node's lenient, case-insensitive hex decoder) to exactly the HMAC digest
bytes. -/
theorem verifyWebhookSignature_iff (body : List Nat) (sig : List Char) (secret : List Nat) :
    verifyWebhookSignature body sig secret = true ↔
      hexDecodeLenient (replaceFirst sigPat sig) = hmacSha256 secret body := by
  have hd : hexDecodeLenient (bytesToHex (hmacSha256 secret body)) = hmacSha256 secret body :=
    hexDecode_encode _ (hmacSha256_bytes_lt _ _)
  simp only [verifyWebhookSignature, hd]
  by_cases h : hexDecodeLenient (replaceFirst sigPat sig) = hmacSha256 secret body
  · simp [timingSafeEq, h]
  · by_cases hl : (hmacSha256 secret body).length = (hexDecodeLenient (replaceFirst sigPat sig)).length
    · simp only [timingSafeEq, hl, if_true]
      simp only [beq_iff_eq]
      exact eq_comm
    · simp [timingSafeEq, hl, h]

/-- `find?` through a pointwise update that preserves the searched field. -/
theorem find?_map_pres (store : Store) (g : Enrollment → Enrollment) (p : Enrollment → Bool)
    (hp : ∀ d, p (g d) = p d) :
    (store.map g).find? p = Option.map g (store.find? p) := by
  induction store with
  | nil => rfl
  | cons d rest ih =>
    by_cases h : p (g d) = true
    · rw [List.map_cons, List.find?_cons_of_pos _ h,
        List.find?_cons_of_pos _ (by rw [← hp d]; exact h)]
      rfl
    · rw [List.map_cons, List.find?_cons_of_neg _ h,
        List.find?_cons_of_neg _ (by rw [← hp d]; exact h), ih]

/-- Updating the matching document and then fetching by id returns the update. -/
theorem find?_update (store : Store) (id : String) (e : Enrollment)
    (he : e.enrollmentId = id) :
    ((store.map (fun d => if d.enrollmentId = id then e else d)).find?
        (fun d => decide (d.enrollmentId = id))) =
      Option.map (fun _ => e) (store.find? (fun d => decide (d.enrollmentId = id))) := by
  induction store with
  | nil => rfl
  | cons d rest ih =>
    by_cases h : d.enrollmentId = id
    · simp [h, List.find?_cons_of_pos, he]
    · simp only [List.map_cons, h, if_false]
      rw [List.find?_cons_of_neg _ (by simp [h]), List.find?_cons_of_neg _ (by simp [h]), ih]

theorem docGet_setDoc (store : Store) (id : String) (e : Enrollment)
    (he : e.enrollmentId = id) :
    docGet (setDoc store id e) id = some e := by
  unfold docGet setDoc
  by_cases h : store.any (fun d => decide (d.enrollmentId = id)) = true
  · rw [if_pos h, find?_update store id e he]
    obtain ⟨x, hx, hpx⟩ := List.any_eq_true.mp h
    have hsome : (store.find? (fun d => decide (d.enrollmentId = id))).isSome = true :=
      List.find?_isSome.mpr ⟨x, hx, hpx⟩
    obtain ⟨y, hy⟩ := Option.isSome_iff_exists.mp hsome
    simp [hy]
  · rw [if_neg h, List.find?_append]
    have hnone : store.find? (fun d => decide (d.enrollmentId = id)) = none := by
      rw [List.find?_eq_none]
      intro x hx hc
      exact h (List.any_eq_true.mpr ⟨x, hx, hc⟩)
    simp [hnone, he]

/-! ## C4: order creation with a missing required field -/

/-- C4: if any of `userId`, `courseId`, `amount`, `customerEmail` is missing
from the order-creation request, the route responds 400 and writes no
enrollment document (the store is returned unchanged, and no provider order is
needed: the result does not depend on `providerOrder`). -/
theorem createOrder_missing_field (keyId newId : String) (providerOrder : Option String)
    (now : Nat) (store : Store) (req : OrderReq)
    (h : req.userId = none ∨ req.courseId = none ∨ req.amount = none ∨
      req.customerEmail = none) :
    createOrder keyId newId providerOrder now store req = (400, none, store) := by
  rcases h with h | h | h | h <;> simp [createOrder, truthyS, truthyI, h]

/-- C4 witness. -/
theorem createOrder_missing_field_witness :
    createOrder "key" "enr" (some "order_1") 0 []
      { userId := some "u", courseId := none, amount := some 500,
        currency := none, customerEmail := some "e@x", customerContact := none,
        notes := [] } = (400, none, []) :=
  createOrder_missing_field _ _ _ _ _ _ (Or.inr (Or.inl rfl))

/-! ## C5: successful order creation -/

/-- C5: a valid order-creation request that succeeds at the provider returns
200 with body `{orderId, key, amount, currency, enrollmentId}`, and the
returned `enrollmentId` identifies a persisted enrollment with status
`Pending` whose `amount` is the integer amount of the request. -/
theorem createOrder_success (keyId newId oid : String) (now : Nat) (store : Store)
    (req : OrderReq) (a : Int)
    (hu : truthyS req.userId = true) (hc : truthyS req.courseId = true)
    (ha : req.amount = some a) (hanz : a ≠ 0) (he : truthyS req.customerEmail = true) :
    ∃ enr : Enrollment,
      createOrder keyId newId (some oid) now store req =
        (200, some { orderId := oid, key := keyId, amount := a,
                     currency := req.currency.getD "INR", enrollmentId := newId },
         setDoc store newId enr) ∧
      docGet (setDoc store newId enr) newId = some enr ∧
      enr.status = "Pending" ∧ enr.amount = a ∧ enr.enrollmentId = newId := by
  have hA : truthyI req.amount = true := by simp [ha, truthyI, hanz]
  refine ⟨{ enrollmentId := newId, userId := req.userId.getD "",
            courseId := req.courseId.getD "", amount := a,
            currency := req.currency.getD "INR",
            customerEmail := req.customerEmail.getD "",
            customerContact :=
              match req.customerContact with
              | some c => if c ≠ "" then some c else none
              | none => none,
            razorpayOrderId := oid, razorpayPaymentId := none, paymentMethod := none,
            signature := none, status := "Pending", notes := req.notes,
            createdAt := now, updatedAt := now, rawWebhookEvents := [] },
          ?_, docGet_setDoc _ _ _ rfl, rfl, rfl, rfl⟩
  simp [createOrder, hu, hc, he, ha, truthyI, hanz]

/-! ## C2 / C10: the signature check

`stripOptionalTag` renders the spec's words "after stripping an optional
`sha256=` prefix" (a prefix-anchored strip), for comparison against the code's
actual behaviour (`replaceFirst` + lenient hex decoding). -/

/-- Modelled from the spec's words: strip `'sha256='` only when it is a prefix. -/
def stripOptionalTag (h : List Char) : List Char :=
  if hasPre sigPat h then h.drop sigPat.length else h

/-- Number of positions at which two equal-length strings differ. -/
def hammingDist : List Char → List Char → Nat
  | a :: as, b :: bs => (if a = b then 0 else 1) + hammingDist as bs
  | _, _ => 0

/-- Concrete webhook secret for the counterexamples (bytes of `"testsecret"`). -/
def cexSecret : List Nat := strBytes "testsecret"

/-- Concrete raw webhook body for the counterexamples. -/
def cexBody : List Nat := strBytes "rawbody"

/-- The canonical header: the lowercase hex HMAC digest
`f78005a01a96c96811eb033eb2795e1e0bb85bbceb21bffd47ead371efe774fd`. -/
def cexDigestHex : List Char := bytesToHex (hmacSha256 cexSecret cexBody)

/-- The canonical header with its first character `'f'` flipped to `'F'`:
a single-byte mutation of the valid header. -/
def cexHeaderUpper : List Char := 'F' :: cexDigestHex.tail

/-- The canonical header followed by the two non-hex characters `"zz"`. -/
def cexHeaderTrunc : List Char := cexDigestHex ++ ['z', 'z']

/-- A parse function standing for `JSON.parse` returning an event of an
unhandled type (acknowledged with 200 and no store write). -/
def parseOther : List Nat → Option WebhookEvent :=
  fun _ => some { event := "order.paid", payment := none }

/-- C2 counterexample: `cexHeaderUpper` is a single-byte mutation of the valid
header (same length, Hamming distance 1, not equal to the digest even after
stripping the — absent — `sha256=` prefix), yet `verifyWebhookSignature`
accepts it and the webhook proceeds past signature verification (status 200,
not 400), because Node's `Buffer.from(·,'hex')` decodes case-insensitively.
The claim's "any single-byte mutation of the header causes rejection (400)"
and its acceptance condition are both false at this input. -/
theorem webhook_signature_claim_false :
    verifyWebhookSignature cexBody cexHeaderUpper cexSecret = true ∧
    stripOptionalTag cexHeaderUpper ≠ cexDigestHex ∧
    cexHeaderUpper.length = cexDigestHex.length ∧
    hammingDist cexHeaderUpper cexDigestHex = 1 ∧
    handleWebhook cexSecret parseOther 0 [] (some cexHeaderUpper) cexBody = (200, []) := by
  refine ⟨by decide, by decide, by decide, by decide, ?_⟩
  have hv : verifyWebhookSignature cexBody cexHeaderUpper cexSecret = true := by decide
  simp [handleWebhook, hv, parseOther]

/-- C2 (amended): a missing header yields 400 with the store unchanged; a
header failing verification yields 400 with the store unchanged; and the
handler proceeds past signature verification exactly when the header, after
removal of the first occurrence of `'sha256='` anywhere in it, hex-decodes
(case-insensitively, truncating at the first invalid pair) to exactly the
HMAC-SHA256 digest bytes of the raw body keyed by the webhook secret. -/
theorem webhook_signature_acceptance (secret : List Nat)
    (parse : List Nat → Option WebhookEvent) (now : Nat) (store : Store) (body : List Nat) :
    (handleWebhook secret parse now store none body = (400, store)) ∧
    (∀ H, verifyWebhookSignature body H secret = false →
      handleWebhook secret parse now store (some H) body = (400, store)) ∧
    (∀ H, verifyWebhookSignature body H secret = true ↔
      hexDecodeLenient (replaceFirst sigPat H) = hmacSha256 secret body) := by
  refine ⟨rfl, fun H h => ?_, fun H => verifyWebhookSignature_iff body H secret⟩
  simp [handleWebhook, h]

/-- C2 witness. -/
theorem webhook_signature_acceptance_witness :
    (handleWebhook cexSecret parseOther 3 [] none cexBody = (400, [])) ∧
    (handleWebhook cexSecret parseOther 3 [] (some ['n', 'o']) cexBody = (400, [])) ∧
    (verifyWebhookSignature cexBody cexDigestHex cexSecret = true ↔
      hexDecodeLenient (replaceFirst sigPat cexDigestHex) = hmacSha256 cexSecret cexBody) :=
  ⟨(webhook_signature_acceptance cexSecret parseOther 3 [] cexBody).1,
   (webhook_signature_acceptance cexSecret parseOther 3 [] cexBody).2.1 ['n', 'o'] (by decide),
   (webhook_signature_acceptance cexSecret parseOther 3 [] cexBody).2.2 cexDigestHex⟩

/-- C10 counterexample: the header `digest ++ "zz"` is not the hex encoding of
any 32-byte string (it is 66 characters long), yet `verifyWebhookSignature`
accepts it: Node's lenient decoder truncates at the invalid pair `"zz"`,
leaving exactly the digest bytes, so no length mismatch occurs. The claim's
"any header whose stripped value is not the hex encoding of a digest-length
byte string is rejected" is false at this input. -/
theorem verify_nonhex_header_accepted :
    verifyWebhookSignature cexBody cexHeaderTrunc cexSecret = true ∧
    (∀ bs : List Nat, bs.length = 32 → bytesToHex bs ≠ replaceFirst sigPat cexHeaderTrunc) := by
  refine ⟨by decide, fun bs h32 heq => ?_⟩
  have h1 : (bytesToHex bs).length = 64 := by rw [bytesToHex_length, h32]
  have h2 : (replaceFirst sigPat cexHeaderTrunc).length = 66 := by decide
  rw [heq, h2] at h1
  exact absurd h1 (by decide)

/-- C10 (amended): `verifyWebhookSignature` is a total boolean function (the
embedding returns a `Bool` on every input; the only exception the original can
raise inside the `try`, the `RangeError` of `crypto.timingSafeEqual` on a
length mismatch, is modelled by `timingSafeEq = none` and caught); any header
whose stripped value decodes, under Node's lenient hex decoder, to a byte
string whose length differs from the digest's is rejected via that caught
length mismatch. -/
theorem verify_length_mismatch_rejected (body : List Nat) (H : List Char) (secret : List Nat)
    (h : (hexDecodeLenient (replaceFirst sigPat H)).length ≠ (hmacSha256 secret body).length) :
    verifyWebhookSignature body H secret = false := by
  have hd : hexDecodeLenient (bytesToHex (hmacSha256 secret body)) = hmacSha256 secret body :=
    hexDecode_encode _ (hmacSha256_bytes_lt _ _)
  simp only [verifyWebhookSignature, hd, timingSafeEq]
  rw [if_neg (fun hc => h hc.symm)]

/-- C10 witness: the one-character header `"z"` decodes to zero bytes, so it
is rejected. -/
theorem verify_length_mismatch_rejected_witness :
    verifyWebhookSignature cexBody ['z'] cexSecret = false :=
  verify_length_mismatch_rejected cexBody ['z'] cexSecret (by decide)

/-! ## C3: failure policy of the webhook route -/

/-- C3 counterexample: a request whose signature is valid but whose body is
not parseable JSON (`parse = none` models the `JSON.parse` exception) is
answered with status 500 — outside the 4xx range the claim requires — though
the store is indeed unchanged. -/
theorem webhook_malformed_payload_500 :
    handleWebhook cexSecret (fun _ => none) 0 [] (some cexDigestHex) cexBody = (500, []) ∧
    ¬(400 ≤ (handleWebhook cexSecret (fun _ => none) 0 [] (some cexDigestHex) cexBody).1 ∧
      (handleWebhook cexSecret (fun _ => none) 0 [] (some cexDigestHex) cexBody).1 ≤ 499) := by
  have hv : verifyWebhookSignature cexBody cexDigestHex cexSecret = true := by decide
  have hr : handleWebhook cexSecret (fun _ => none) 0 [] (some cexDigestHex) cexBody =
      (500, []) := by simp [handleWebhook, hv]
  exact ⟨hr, by rw [hr]; omega⟩

/-- C3 (amended): a missing or invalid signature yields 400 with no state
mutation; a malformed (unparseable) payload on a correctly signed request
yields 500 — not 4xx — also with no state mutation. -/
theorem webhook_failure_policy (secret : List Nat) (parse : List Nat → Option WebhookEvent)
    (now : Nat) (store : Store) (body : List Nat) :
    (handleWebhook secret parse now store none body = (400, store)) ∧
    (∀ H, verifyWebhookSignature body H secret = false →
      handleWebhook secret parse now store (some H) body = (400, store)) ∧
    (∀ H, verifyWebhookSignature body H secret = true → parse body = none →
      handleWebhook secret parse now store (some H) body = (500, store)) := by
  refine ⟨rfl, fun H h => by simp [handleWebhook, h], fun H hv hp => ?_⟩
  simp [handleWebhook, hv, hp]

/-- C3 witness. -/
theorem webhook_failure_policy_witness :
    (handleWebhook cexSecret (fun _ => none) 9 [] none cexBody = (400, [])) ∧
    (handleWebhook cexSecret (fun _ => none) 9 [] (some ['x']) cexBody = (400, [])) ∧
    (handleWebhook cexSecret (fun _ => none) 9 [] (some cexDigestHex) cexBody = (500, [])) :=
  ⟨(webhook_failure_policy cexSecret (fun _ => none) 9 [] cexBody).1,
   (webhook_failure_policy cexSecret (fun _ => none) 9 [] cexBody).2.1 ['x'] (by decide),
   (webhook_failure_policy cexSecret (fun _ => none) 9 [] cexBody).2.2 cexDigestHex
     (by decide) rfl⟩

/-! ## Lemmas about enrollment resolution and the capture update -/

theorem resolve_map (store : Store) (p : PaymentEntity) (g : Enrollment → Enrollment)
    (h1 : ∀ e, (g e).enrollmentId = e.enrollmentId)
    (h2 : ∀ e, (g e).razorpayOrderId = e.razorpayOrderId) :
    resolveEnrollment (store.map g) p = Option.map g (resolveEnrollment store p) := by
  have hid : ∀ q : String, (store.map g).find? (fun d => decide (d.enrollmentId = q)) =
      Option.map g (store.find? (fun d => decide (d.enrollmentId = q))) :=
    fun q => find?_map_pres store g _ (fun d => by simp [h1])
  have hord : (store.map g).find? (fun d => decide (d.razorpayOrderId = p.order_id)) =
      Option.map g (store.find? (fun d => decide (d.razorpayOrderId = p.order_id))) :=
    find?_map_pres store g _ (fun d => by simp [h2])
  unfold resolveEnrollment resolveByNotes docGet queryByOrderId
  cases hn : p.notesEnrollmentId with
  | none => exact hord
  | some eid =>
    by_cases he : eid = ""
    · simp only [he, ne_eq, not_true_eq_false, if_false]
      exact hord
    · simp only [ne_eq, he, not_false_eq_true, if_true]
      rw [hid eid]
      cases store.find? (fun d => decide (d.enrollmentId = eid)) with
      | some x => rfl
      | none => exact hord

theorem resolveByNotes_mem (store : Store) (p : PaymentEntity) (x : Enrollment)
    (h : resolveByNotes store p = some x) : x ∈ store := by
  cases hn : p.notesEnrollmentId with
  | none => simp [resolveByNotes, hn] at h
  | some eid =>
    simp only [resolveByNotes, hn] at h
    unfold docGet at h
    split at h
    · exact List.mem_of_find?_eq_some h
    · cases h

theorem resolve_mem (store : Store) (p : PaymentEntity) (d : Enrollment)
    (h : resolveEnrollment store p = some d) : d ∈ store := by
  rcases hsplit : resolveByNotes store p with _ | x
  · rw [resolveEnrollment, hsplit] at h
    exact List.mem_of_find?_eq_some h
  · rw [resolveEnrollment, hsplit] at h
    cases h
    exact resolveByNotes_mem store p _ hsplit

/-- With distinct document ids, fetching a member by its id returns it. -/
theorem docGet_of_mem_nodup (store : Store) (d : Enrollment)
    (hn : (store.map (fun e => e.enrollmentId)).Nodup) (hd : d ∈ store) :
    docGet store d.enrollmentId = some d := by
  induction store with
  | nil => cases hd
  | cons x rest ih =>
    rw [List.map_cons, List.nodup_cons] at hn
    rcases List.mem_cons.mp hd with rfl | hmem
    · exact List.find?_cons_of_pos _ (by simp)
    · have hx : x.enrollmentId ≠ d.enrollmentId := by
        intro hc
        exact hn.1 (hc ▸ List.mem_map.mpr ⟨d, hmem, rfl⟩)
      rw [docGet, List.find?_cons_of_neg _ (by simp [hx])]
      exact ih hn.2 hmem

/-- Fetching by id through the handler's keyed pointwise update applies the
update to the fetched document. -/
theorem docGet_map_update (store : Store) (key : String) (f : Enrollment → Enrollment)
    (d : Enrollment) (hd : docGet store key = some d)
    (hf : ∀ e, (f e).enrollmentId = e.enrollmentId) :
    docGet (store.map (fun e => if e.enrollmentId = key then f e else e)) key =
      some (f d) := by
  have hd' : store.find? (fun e => decide (e.enrollmentId = key)) = some d := hd
  have hdk : d.enrollmentId = key := by
    have hp := List.find?_some hd'
    simpa using hp
  unfold docGet
  rw [find?_map_pres store _ _
    (fun e => by by_cases h : e.enrollmentId = key <;> simp [h, hf e])]
  unfold docGet at hd
  rw [hd, Option.map_some', if_pos hdk]

/-- Unfolding of the webhook handler on a verified, parseable
`payment.captured` event that resolves to an enrollment. -/
theorem handleWebhook_captured (secret : List Nat) (parse : List Nat → Option WebhookEvent)
    (now : Nat) (store : Store) (H : List Char) (body : List Nat) (ev : WebhookEvent)
    (p : PaymentEntity) (d : Enrollment)
    (hsig : verifyWebhookSignature body H secret = true)
    (hparse : parse body = some ev) (hcap : ev.event = "payment.captured")
    (hpay : ev.payment = some p) (hres : resolveEnrollment store p = some d) :
    handleWebhook secret parse now store (some H) body =
      (200, store.map (fun e => if e.enrollmentId = d.enrollmentId
                                then applyCapture ev p H now e else e)) := by
  simp [handleWebhook, hsig, hparse, hcap, hpay, hres]

/-! ## C1: idempotence of `payment.captured` redelivery -/

/-- C1: delivering the same `payment.captured` body twice (each time with a
header that passes verification) performs exactly one status transition: the
enrollment, `Pending` beforehand, is `Paid` after the first delivery and still
`Paid` (no further transition) after the second; the payment id and method are
overwritten with identical values (`some p.id` / `p.method` both times); and
the audit log `rawWebhookEvents` contains the event exactly once, because
`FieldValue.arrayUnion` is a set union keyed by event identity. -/
theorem webhook_idempotent (secret : List Nat) (parse : List Nat → Option WebhookEvent)
    (now1 now2 : Nat) (store : Store) (H1 H2 : List Char) (body : List Nat)
    (ev : WebhookEvent) (p : PaymentEntity) (d : Enrollment)
    (hn : (store.map (fun e => e.enrollmentId)).Nodup)
    (hsig1 : verifyWebhookSignature body H1 secret = true)
    (hsig2 : verifyWebhookSignature body H2 secret = true)
    (hparse : parse body = some ev)
    (hcap : ev.event = "payment.captured")
    (hpay : ev.payment = some p)
    (hres : resolveEnrollment store p = some d)
    (hpend : d.status = "Pending")
    (hfresh : ev ∉ d.rawWebhookEvents) :
    ∃ d1 d2 : Enrollment,
      (handleWebhook secret parse now1 store (some H1) body).1 = 200 ∧
      docGet (handleWebhook secret parse now1 store (some H1) body).2 d.enrollmentId
        = some d1 ∧
      (handleWebhook secret parse now2
        (handleWebhook secret parse now1 store (some H1) body).2 (some H2) body).1 = 200 ∧
      docGet (handleWebhook secret parse now2
        (handleWebhook secret parse now1 store (some H1) body).2 (some H2) body).2
        d.enrollmentId = some d2 ∧
      d1.status = "Paid" ∧ d2.status = "Paid" ∧
      d1.rawWebhookEvents.count ev = 1 ∧ d2.rawWebhookEvents.count ev = 1 ∧
      d2.razorpayPaymentId = d1.razorpayPaymentId ∧
      d2.paymentMethod = d1.paymentMethod ∧
      d1.razorpayPaymentId = some p.id ∧ d1.paymentMethod = p.method := by
  have h1 := handleWebhook_captured secret parse now1 store H1 body ev p d
    hsig1 hparse hcap hpay hres
  have hg1 : ∀ e : Enrollment,
      ((fun e => if e.enrollmentId = d.enrollmentId then applyCapture ev p H1 now1 e
                 else e) e).enrollmentId = e.enrollmentId := by
    intro e
    by_cases h : e.enrollmentId = d.enrollmentId <;> simp [h, applyCapture]
  have hg1o : ∀ e : Enrollment,
      ((fun e => if e.enrollmentId = d.enrollmentId then applyCapture ev p H1 now1 e
                 else e) e).razorpayOrderId = e.razorpayOrderId := by
    intro e
    by_cases h : e.enrollmentId = d.enrollmentId <;> simp [h, applyCapture]
  have hres1 : resolveEnrollment
      (store.map (fun e => if e.enrollmentId = d.enrollmentId
                           then applyCapture ev p H1 now1 e else e)) p =
      some (applyCapture ev p H1 now1 d) := by
    rw [resolve_map store p _ hg1 hg1o, hres, Option.map_some']
    exact congrArg some (if_pos rfl)
  have h2 := handleWebhook_captured secret parse now2
    (store.map (fun e => if e.enrollmentId = d.enrollmentId
                         then applyCapture ev p H1 now1 e else e)) H2 body ev p
    (applyCapture ev p H1 now1 d) hsig2 hparse hcap hpay hres1
  have hkey : (applyCapture ev p H1 now1 d).enrollmentId = d.enrollmentId := rfl
  rw [hkey] at h2
  have hd0 : docGet store d.enrollmentId = some d :=
    docGet_of_mem_nodup store d hn (resolve_mem store p d hres)
  have hdg1 := docGet_map_update store d.enrollmentId (applyCapture ev p H1 now1) d hd0
    (fun e => rfl)
  have hdg2 := docGet_map_update _ d.enrollmentId (applyCapture ev p H2 now2)
    (applyCapture ev p H1 now1 d) hdg1 (fun e => rfl)
  have hevents1 : (applyCapture ev p H1 now1 d).rawWebhookEvents =
      d.rawWebhookEvents ++ [ev] := by
    show (if ev ∈ d.rawWebhookEvents then d.rawWebhookEvents
          else d.rawWebhookEvents ++ [ev]) = d.rawWebhookEvents ++ [ev]
    rw [if_neg hfresh]
  have hmem1 : ev ∈ (applyCapture ev p H1 now1 d).rawWebhookEvents := by
    rw [hevents1]; exact List.mem_append_right _ (List.mem_singleton.mpr rfl)
  have hevents2 : (applyCapture ev p H2 now2 (applyCapture ev p H1 now1 d)).rawWebhookEvents =
      d.rawWebhookEvents ++ [ev] := by
    show (if ev ∈ (applyCapture ev p H1 now1 d).rawWebhookEvents
          then (applyCapture ev p H1 now1 d).rawWebhookEvents
          else (applyCapture ev p H1 now1 d).rawWebhookEvents ++ [ev]) =
        d.rawWebhookEvents ++ [ev]
    rw [if_pos hmem1, hevents1]
  have hcount : (d.rawWebhookEvents ++ [ev]).count ev = 1 := by
    rw [List.count_append, List.count_eq_zero.mpr hfresh]
    simp
  refine ⟨applyCapture ev p H1 now1 d, applyCapture ev p H2 now2 (applyCapture ev p H1 now1 d),
    ?_, ?_, ?_, ?_, rfl, rfl, ?_, ?_, rfl, rfl, rfl, rfl⟩
  · rw [h1]
  · rw [h1]; exact hdg1
  · rw [h1, h2]
  · rw [h1, h2]; exact hdg2
  · rw [hevents1]; exact hcount
  · rw [hevents2]; exact hcount

/-! ## C6: resolution fallback -/

/-- C6: on a verified `payment.captured` event whose payment notes do not
resolve an enrollment (no `enrollmentId`, an empty one, or one matching no
document), the handler falls back to the `razorpayOrderId` lookup: if that
query finds a document the handler updates it (status 200); if neither
resolution succeeds it responds 404 with the store unchanged. -/
theorem webhook_resolution_fallback (secret : List Nat)
    (parse : List Nat → Option WebhookEvent) (now : Nat) (store : Store)
    (H : List Char) (body : List Nat) (ev : WebhookEvent) (p : PaymentEntity)
    (hsig : verifyWebhookSignature body H secret = true)
    (hparse : parse body = some ev) (hcap : ev.event = "payment.captured")
    (hpay : ev.payment = some p)
    (hnotes : resolveByNotes store p = none) :
    (queryByOrderId store p.order_id = none →
      handleWebhook secret parse now store (some H) body = (404, store)) ∧
    (∀ d, queryByOrderId store p.order_id = some d →
      handleWebhook secret parse now store (some H) body =
        (200, store.map (fun e => if e.enrollmentId = d.enrollmentId
                                  then applyCapture ev p H now e else e))) := by
  constructor
  · intro hq
    have hres : resolveEnrollment store p = none := by
      rw [resolveEnrollment, hnotes, hq]
    simp [handleWebhook, hsig, hparse, hcap, hpay, hres]
  · intro d hq
    have hres : resolveEnrollment store p = some d := by
      rw [resolveEnrollment, hnotes, hq]
    exact handleWebhook_captured secret parse now store H body ev p d
      hsig hparse hcap hpay hres

/-! ## Concrete webhook scenario used by the witnesses -/

/-- The payment entity of the concrete `payment.captured` event. -/
def cPayment : PaymentEntity :=
  { id := "pay_9", order_id := "order_9", method := some "upi",
    notesEnrollmentId := some "enr_9" }

/-- The concrete `payment.captured` event. -/
def cEvent : WebhookEvent :=
  { event := "payment.captured", payment := some cPayment }

/-- A pending enrollment matching `cPayment` both by notes id and by order id. -/
def cEnroll : Enrollment :=
  { enrollmentId := "enr_9", userId := "u1", courseId := "c1", amount := 100,
    currency := "INR", customerEmail := "u@x.com", customerContact := none,
    razorpayOrderId := "order_9", razorpayPaymentId := none, paymentMethod := none,
    signature := none, status := "Pending", notes := [], createdAt := 0,
    updatedAt := 0, rawWebhookEvents := [] }

/-- `JSON.parse` for the concrete scenario: `cexBody` parses to `cEvent`. -/
def cParse : List Nat → Option WebhookEvent :=
  fun b => if b = cexBody then some cEvent else none

/-- C1 witness: the concrete event delivered twice, once with the bare hex
header and once with the `sha256=`-tagged header. -/
theorem webhook_idempotent_witness :
    ∃ d1 d2 : Enrollment,
      (handleWebhook cexSecret cParse 1 [cEnroll] (some cexDigestHex) cexBody).1 = 200 ∧
      docGet (handleWebhook cexSecret cParse 1 [cEnroll] (some cexDigestHex) cexBody).2
        cEnroll.enrollmentId = some d1 ∧
      (handleWebhook cexSecret cParse 2
        (handleWebhook cexSecret cParse 1 [cEnroll] (some cexDigestHex) cexBody).2
        (some (sigPat ++ cexDigestHex)) cexBody).1 = 200 ∧
      docGet (handleWebhook cexSecret cParse 2
        (handleWebhook cexSecret cParse 1 [cEnroll] (some cexDigestHex) cexBody).2
        (some (sigPat ++ cexDigestHex)) cexBody).2 cEnroll.enrollmentId = some d2 ∧
      d1.status = "Paid" ∧ d2.status = "Paid" ∧
      d1.rawWebhookEvents.count cEvent = 1 ∧ d2.rawWebhookEvents.count cEvent = 1 ∧
      d2.razorpayPaymentId = d1.razorpayPaymentId ∧
      d2.paymentMethod = d1.paymentMethod ∧
      d1.razorpayPaymentId = some cPayment.id ∧ d1.paymentMethod = cPayment.method :=
  webhook_idempotent cexSecret cParse 1 2 [cEnroll] cexDigestHex (sigPat ++ cexDigestHex)
    cexBody cEvent cPayment cEnroll (by decide) (by decide) (by decide) (by decide)
    (by decide) (by decide) (by decide) (by decide) (by decide)

/-- C6 witness: with an empty store neither resolution succeeds and the
verified captured event is answered 404 without any write. -/
theorem webhook_resolution_fallback_witness :
    handleWebhook cexSecret cParse 0 [] (some cexDigestHex) cexBody = (404, []) :=
  (webhook_resolution_fallback cexSecret cParse 0 [] cexDigestHex cexBody cEvent cPayment
    (by decide) (by decide) (by decide) (by decide) (by decide)).1 rfl

/-! ## C8: retry behaviour of `zoomApiCall` -/

theorem zoomApiCall_ok_aux {α : Type} (attempts : Nat → ZoomAttempt α)
    (maxRetries k : Nat) (v : α) (hmax : k < maxRetries)
    (h429 : ∀ i, 0 < i → i ≤ k →
      ∃ st cd, attempts i = .fail st cd ∧ rateLimited st cd = true)
    (hok : attempts (k + 1) = .ok v) :
    ∀ n a, k - a = n → a ≤ k → zoomApiCall attempts maxRetries a = .ok v := by
  intro n
  induction n with
  | zero =>
    intro a hka hak
    have : a = k := by omega
    subst this
    rw [zoomApiCall, hok]
  | succ n ih =>
    intro a hka hak
    obtain ⟨st, cd, hfail, hrl⟩ := h429 (a + 1) (by omega) (by omega)
    rw [zoomApiCall, hfail]
    dsimp only
    rw [dif_pos ⟨hrl, by omega⟩]
    exact ih (a + 1) (by omega) (by omega)

theorem zoomApiCall_exhaust_aux {α : Type} (attempts : Nat → ZoomAttempt α)
    (maxRetries : Nat) (st cd : Nat → Option Nat)
    (h429 : ∀ i, 0 < i → i ≤ maxRetries →
      attempts i = .fail (st i) (cd i) ∧ rateLimited (st i) (cd i) = true) :
    ∀ n a, maxRetries - a = n + 1 →
      zoomApiCall attempts maxRetries a = .error (st maxRetries, cd maxRetries) := by
  intro n
  induction n with
  | zero =>
    intro a ha
    have heq : a + 1 = maxRetries := by omega
    obtain ⟨hfail, _⟩ := h429 (a + 1) (by omega) (by omega)
    rw [zoomApiCall, hfail]
    dsimp only
    rw [dif_neg (by omega), heq]
  | succ n ih =>
    intro a ha
    obtain ⟨hfail, hrl⟩ := h429 (a + 1) (by omega) (by omega)
    rw [zoomApiCall, hfail]
    dsimp only
    rw [dif_pos ⟨hrl, by omega⟩]
    exact ih (a + 1) (by omega)

theorem zoomApiCall_nonrl_aux {α : Type} (attempts : Nat → ZoomAttempt α)
    (maxRetries j : Nat) (st cd : Option Nat) (hj : j ≤ maxRetries)
    (h429 : ∀ i, 0 < i → i < j →
      ∃ s c, attempts i = .fail s c ∧ rateLimited s c = true)
    (hfail : attempts j = .fail st cd) (hnot : rateLimited st cd = false) :
    ∀ n a, j - a = n + 1 → zoomApiCall attempts maxRetries a = .error (st, cd) := by
  intro n
  induction n with
  | zero =>
    intro a ha
    have heq : a + 1 = j := by omega
    have hfail' : attempts (a + 1) = .fail st cd := by rw [heq]; exact hfail
    rw [zoomApiCall, hfail']
    dsimp only
    rw [dif_neg (by simp [hnot])]
  | succ n ih =>
    intro a ha
    obtain ⟨s, c, hf, hrl⟩ := h429 (a + 1) (by omega) (by omega)
    rw [zoomApiCall, hf]
    dsimp only
    rw [dif_pos ⟨hrl, by omega⟩]
    exact ih (a + 1) (by omega)

/-- C8: for a call deferred through `zoomApiCall` (attempts numbered from 1,
default `maxRetries = 5`):
* if every attempt up to `k < maxRetries` fails rate-limited (HTTP status or
  body code 429) and attempt `k + 1` succeeds with `v`, the promise resolves
  with `v`;
* if every attempt up to `maxRetries` fails rate-limited, the promise rejects
  with the last error;
* if the attempts prior to some attempt `j` fail rate-limited and attempt `j`
  fails with a non-rate-limit error, the promise rejects with that error
  immediately (no further attempt is consulted). -/
theorem zoomApiCall_retry_spec :
    (∀ (α : Type) (attempts : Nat → ZoomAttempt α) (maxRetries k : Nat) (v : α),
      k < maxRetries →
      (∀ i, 0 < i → i ≤ k → ∃ st cd, attempts i = .fail st cd ∧ rateLimited st cd = true) →
      attempts (k + 1) = .ok v →
      zoomApiCall attempts maxRetries 0 = .ok v) ∧
    (∀ (α : Type) (attempts : Nat → ZoomAttempt α) (maxRetries : Nat)
      (st cd : Nat → Option Nat), 0 < maxRetries →
      (∀ i, 0 < i → i ≤ maxRetries →
        attempts i = .fail (st i) (cd i) ∧ rateLimited (st i) (cd i) = true) →
      zoomApiCall attempts maxRetries 0 = .error (st maxRetries, cd maxRetries)) ∧
    (∀ (α : Type) (attempts : Nat → ZoomAttempt α) (maxRetries j : Nat)
      (st cd : Option Nat), 0 < j → j ≤ maxRetries →
      (∀ i, 0 < i → i < j → ∃ s c, attempts i = .fail s c ∧ rateLimited s c = true) →
      attempts j = .fail st cd → rateLimited st cd = false →
      zoomApiCall attempts maxRetries 0 = .error (st, cd)) := by
  refine ⟨fun α attempts maxRetries k v hmax h429 hok => ?_,
          fun α attempts maxRetries st cd hmax h429 => ?_,
          fun α attempts maxRetries j st cd hj0 hj h429 hfail hnot => ?_⟩
  · exact zoomApiCall_ok_aux attempts maxRetries k v hmax h429 hok k 0 rfl (Nat.zero_le _)
  · exact zoomApiCall_exhaust_aux attempts maxRetries st cd h429 (maxRetries - 1) 0 (by omega)
  · exact zoomApiCall_nonrl_aux attempts maxRetries j st cd hj h429 hfail hnot (j - 1) 0
      (by omega)

/-- C8 witness: two rate-limited failures, success on the third attempt;
five rate-limited failures exhaust the default budget; an immediate
authorization failure (HTTP 401) is not retried. -/
theorem zoomApiCall_retry_spec_witness :
    zoomApiCall (fun i => if i ≤ 2 then .fail (some 429) none else .ok 42) 5 0 =
      .ok 42 ∧
    zoomApiCall (fun i => ZoomAttempt.fail (α := Nat) (some 429) (some (400 + i))) 5 0 =
      .error (some 429, some 405) ∧
    zoomApiCall (fun _ => ZoomAttempt.fail (α := Nat) (some 401) none) 5 0 =
      .error (some 401, none) := by
  refine ⟨zoomApiCall_retry_spec.1 Nat _ 5 2 42 (by omega) ?_ (by decide),
          zoomApiCall_retry_spec.2.1 Nat _ 5 (fun _ => some 429) (fun i => some (400 + i))
            (by omega) ?_,
          zoomApiCall_retry_spec.2.2 Nat _ 5 1 (some 401) none (by omega) (by omega)
            (fun i h1 h2 => absurd h1 (by omega)) rfl (by decide)⟩
  · intro i h1 h2
    interval_cases i <;> exact ⟨some 429, none, rfl, rfl⟩
  · intro i h1 h2
    exact ⟨rfl, rfl⟩

/-! ## C7: the FIFO worker queue -/

/-- Earliest instant at which the worker may start another task: completion
time of the last execution plus the 400ms base delay (0 when nothing ran). -/
def lastFreeL (l : List (Nat × Nat × Nat)) : Nat :=
  match l.getLast? with
  | some e => e.2.1 + e.2.2 + 400
  | none => 0

/-- Executions are serialized with the mandatory spacing: each starts no
earlier than 400ms after the previous one completed (start + duration + 400).
In particular executions never overlap (at most one call in flight) and
consecutive starts are at least 400ms apart. -/
def spacedOut (l : List (Nat × Nat × Nat)) : Prop :=
  List.Chain' (fun a b => a.2.1 + a.2.2 + 400 ≤ b.2.1) l

/-- Inductive invariant of the queue/worker module: an idle worker leaves no
queued task and no pending timer; a running worker has exactly one pending
`setTimeout(work, …)` continuation, scheduled no earlier than the mandatory
spacing allows; executions are spaced out; when idle, enough time has passed
since the last execution; and the executions so far followed by the waiting
queue list exactly the submitted tasks in submission order. -/
def ZInv (s : ZState) : Prop :=
  (s.running = false → s.queue = [] ∧ s.timers = []) ∧
  (s.running = true → ∃ tm, s.timers = [tm] ∧ lastFreeL s.executed ≤ tm) ∧
  spacedOut s.executed ∧
  (s.running = false → lastFreeL s.executed ≤ s.now) ∧
  s.executed.map (fun e => e.1) ++ s.queue = s.submitted

theorem lastFreeL_concat (l : List (Nat × Nat × Nat)) (x : Nat × Nat × Nat) :
    lastFreeL (l ++ [x]) = x.2.1 + x.2.2 + 400 := by
  rw [lastFreeL, List.getLast?_concat]

theorem getLast?_spacing_le (l : List (Nat × Nat × Nat)) (c : Nat)
    (h : lastFreeL l ≤ c) : ∀ e ∈ l.getLast?, e.2.1 + e.2.2 + 400 ≤ c := by
  intro e he
  cases hg : l.getLast? with
  | none => rw [hg] at he; cases he
  | some x =>
    rw [hg] at he
    rw [lastFreeL, hg] at h
    cases he
    exact h

theorem spacedOut_concat (l : List (Nat × Nat × Nat)) (x : Nat × Nat × Nat)
    (h : spacedOut l) (hlast : lastFreeL l ≤ x.2.1) : spacedOut (l ++ [x]) := by
  rw [spacedOut, List.chain'_append]
  refine ⟨h, List.chain'_singleton _, fun a ha b hb => ?_⟩
  simp only [List.head?_cons, Option.mem_some_iff] at hb
  subst hb
  exact getLast?_spacing_le l _ hlast a ha

theorem zInv_init : ZInv zInit := by
  refine ⟨fun _ => ⟨rfl, rfl⟩, ?_, ?_, ?_, rfl⟩
  · intro h
    simp [zInit] at h
  · simp [spacedOut, zInit]
  · intro _
    simp [zInit, lastFreeL]

/-- The invariant is preserved by every event-loop step. -/
theorem zInv_step (s s' : ZState) (hinv : ZInv s) (hstep : ZStep s s') : ZInv s' := by
  obtain ⟨h1, h2, h3, h4, h5⟩ := hinv
  cases hstep with
  | enq t d j te hj hte =>
    obtain ⟨q, r, tms, exe, sub, nw⟩ := s
    cases r with
    | true =>
      show ZInv { queue := q ++ [t], running := true, timers := tms, executed := exe,
                  submitted := sub ++ [t], now := te }
      refine ⟨?_, ?_, h3, ?_, ?_⟩
      · intro h
        simp at h
      · intro _
        exact h2 rfl
      · intro h
        simp at h
      · show List.map (fun e => e.1) exe ++ (q ++ [t]) = sub ++ [t]
        rw [← List.append_assoc, h5]
    | false =>
      have hq : q = [] := (h1 rfl).1
      have htms : tms = [] := (h1 rfl).2
      subst hq
      subst htms
      show ZInv { queue := [], running := true, timers := [te + d + 400 + j],
                  executed := exe ++ [(t, te, d)], submitted := sub ++ [t], now := te }
      refine ⟨?_, ?_, ?_, ?_, ?_⟩
      · intro h
        simp at h
      · intro _
        refine ⟨te + d + 400 + j, rfl, ?_⟩
        rw [lastFreeL_concat]
        show te + d + 400 ≤ te + d + 400 + j
        omega
      · exact spacedOut_concat _ _ h3 (le_trans (h4 rfl) hte)
      · intro h
        simp at h
      · have h5' : List.map (fun e => e.1) exe = sub := by simpa using h5
        show List.map (fun e => e.1) (exe ++ [(t, te, d)]) ++ [] = sub ++ [t]
        simp [h5']
  | fire tm tf d j hj hmem htm hnow =>
    obtain ⟨q, r, tms, exe, sub, nw⟩ := s
    cases r with
    | false =>
      rw [(h1 rfl).2] at hmem
      cases hmem
    | true =>
      obtain ⟨tm0, htm0, hfree⟩ := h2 rfl
      subst htm0
      have htmeq : tm = tm0 := by simpa using hmem
      subst htmeq
      have herase : ([tm] : List Nat).erase tm = [] := by simp
      cases q with
      | nil =>
        show ZInv (workAt tf d j
          { queue := [], running := true, timers := ([tm] : List Nat).erase tm,
            executed := exe, submitted := sub, now := nw })
        rw [herase]
        show ZInv { queue := [], running := false, timers := [], executed := exe,
                    submitted := sub, now := tf }
        refine ⟨?_, ?_, h3, ?_, ?_⟩
        · intro _
          exact ⟨rfl, rfl⟩
        · intro h
          simp at h
        · intro _
          exact le_trans hfree htm
        · simpa using h5
      | cons t rest =>
        show ZInv (workAt tf d j
          { queue := t :: rest, running := true, timers := ([tm] : List Nat).erase tm,
            executed := exe, submitted := sub, now := nw })
        rw [herase]
        show ZInv { queue := rest, running := true, timers := [tf + d + 400 + j],
                    executed := exe ++ [(t, tf, d)], submitted := sub, now := tf }
        refine ⟨?_, ?_, ?_, ?_, ?_⟩
        · intro h
          simp at h
        · intro _
          refine ⟨tf + d + 400 + j, rfl, ?_⟩
          rw [lastFreeL_concat]
          show tf + d + 400 ≤ tf + d + 400 + j
          omega
        · exact spacedOut_concat _ _ h3 (le_trans hfree htm)
        · intro h
          simp at h
        · show List.map (fun e => e.1) (exe ++ [(t, tf, d)]) ++ rest = sub
          rw [List.map_append, List.append_assoc]
          simpa using h5

theorem workAt_submitted (time d j : Nat) (s : ZState) :
    (workAt time d j s).submitted = s.submitted := by
  unfold workAt
  cases s.queue <;> rfl

/-- From any invariant state, firing the pending worker continuation until the
queue is empty executes every submitted task, in submission order, keeping the
spacing discipline. -/
theorem zDrain : ∀ (n : Nat) (s : ZState),
    s.queue.length + (if s.running = true then 1 else 0) ≤ n → ZInv s →
    ∃ s', Relation.ReflTransGen ZStep s s' ∧ s'.submitted = s.submitted ∧
      s'.executed.map (fun e => e.1) = s'.submitted ∧ spacedOut s'.executed := by
  intro n
  induction n with
  | zero =>
    intro s hm hinv
    have hr : s.running = false := by
      cases hsr : s.running with
      | false => rfl
      | true => rw [hsr] at hm; simp at hm
    obtain ⟨hq, _⟩ := hinv.1 hr
    refine ⟨s, Relation.ReflTransGen.refl, rfl, ?_, hinv.2.2.1⟩
    have h5 := hinv.2.2.2.2
    rw [hq] at h5
    simpa using h5
  | succ n ih =>
    intro s hm hinv
    cases hsr : s.running with
    | false =>
      obtain ⟨hq, _⟩ := hinv.1 hsr
      refine ⟨s, Relation.ReflTransGen.refl, rfl, ?_, hinv.2.2.1⟩
      have h5 := hinv.2.2.2.2
      rw [hq] at h5
      simpa using h5
    | true =>
      obtain ⟨tm, htm, _⟩ := hinv.2.1 hsr
      have hstep : ZStep s (workAt (max s.now tm) 0 0 { s with timers := s.timers.erase tm }) :=
        ZStep.fire s tm (max s.now tm) 0 0 (by omega) (by rw [htm]; exact List.mem_singleton.mpr rfl)
          (le_max_right _ _) (le_max_left _ _)
      have hinv' := zInv_step _ _ hinv hstep
      have hmeas : (workAt (max s.now tm) 0 0 { s with timers := s.timers.erase tm }).queue.length +
          (if (workAt (max s.now tm) 0 0 { s with timers := s.timers.erase tm }).running = true
           then 1 else 0) ≤ n := by
        cases hq : s.queue with
        | nil => simp [workAt, hq]
        | cons t rest =>
          simp only [workAt, hq, hsr]
          simp only [if_true]
          rw [hq] at hm
          simp only [List.length_cons, hsr, if_true] at hm
          omega
      obtain ⟨s', hsteps, hsub, hexec, hchain⟩ := ih _ hmeas hinv'
      refine ⟨s', Relation.ReflTransGen.head hstep hsteps, ?_, hexec, hchain⟩
      rw [hsub, workAt_submitted]

theorem zReach_inv (s : ZState) (h : ZReach s) : ZInv s := by
  induction h with
  | refl => exact zInv_init
  | tail _ hstep ih => exact zInv_step _ _ ih hstep

/-- C7: in every reachable state of the queue/worker module there is at most
one pending worker continuation (never two workers in flight: the
`zoomWorkerRunning` guard admits a single `work` chain); the executions so far
followed by the waiting queue are exactly the submitted tasks in submission
(FIFO) order; executions are spaced ≥ 400ms apart (start-to-start at least
the previous task's duration plus the 400ms base delay, so calls never
overlap); and from any such state the worker can drain the queue so that all
submitted tasks execute, in submission order, under the same spacing. -/
theorem zoom_queue_worker_fifo (s : ZState) (h : ZReach s) :
    s.timers.length ≤ 1 ∧
    s.executed.map (fun e => e.1) ++ s.queue = s.submitted ∧
    spacedOut s.executed ∧
    ∃ s', Relation.ReflTransGen ZStep s s' ∧ s'.submitted = s.submitted ∧
      s'.executed.map (fun e => e.1) = s.submitted ∧ spacedOut s'.executed := by
  have hinv := zReach_inv s h
  have htlen : s.timers.length ≤ 1 := by
    cases hsr : s.running with
    | false => rw [(hinv.1 hsr).2]; exact Nat.zero_le _
    | true =>
      obtain ⟨tm, htm, _⟩ := hinv.2.1 hsr
      rw [htm]
      simp
  obtain ⟨s', hst, hsub, hex, hch⟩ :=
    zDrain (s.queue.length + (if s.running = true then 1 else 0)) s le_rfl hinv
  refine ⟨htlen, hinv.2.2.2.2, hinv.2.2.1, s', hst, hsub, ?_, hch⟩
  rw [hex, hsub]

/-- C7 witness: the state reached by a single `zoomApiCall` enqueue on the
idle module (the task starts immediately; duration 5, jitter 3). -/
theorem zoom_queue_worker_fifo_witness :
    (enqueueStep 7 5 3 { zInit with now := 0 }).timers.length ≤ 1 ∧
    (enqueueStep 7 5 3 { zInit with now := 0 }).executed.map (fun e => e.1) ++
      (enqueueStep 7 5 3 { zInit with now := 0 }).queue =
      (enqueueStep 7 5 3 { zInit with now := 0 }).submitted ∧
    spacedOut (enqueueStep 7 5 3 { zInit with now := 0 }).executed ∧
    ∃ s', Relation.ReflTransGen ZStep (enqueueStep 7 5 3 { zInit with now := 0 }) s' ∧
      s'.submitted = (enqueueStep 7 5 3 { zInit with now := 0 }).submitted ∧
      s'.executed.map (fun e => e.1) = (enqueueStep 7 5 3 { zInit with now := 0 }).submitted ∧
      spacedOut s'.executed :=
  zoom_queue_worker_fifo _
    (Relation.ReflTransGen.single (ZStep.enq zInit 7 5 3 0 (by omega) (Nat.le_refl 0)))

/-! ## C9: `isMeetingValid` -/

/-- C9 counterexample: for a genuine meeting id but no obtainable access
token, `isMeetingValid` returns false without ever issuing the meeting-lookup
request, even though the (never-consulted) lookup outcome is a success — the
claim's "otherwise it queries the provider, returning false exactly when the
response indicates 3001/404" fails at this input. -/
theorem isMeetingValid_claim_false :
    (isMeetingValid none (.ok (some "77")) (some "123")).queriedMeeting = false ∧
    (isMeetingValid none (.ok (some "77")) (some "123")).valid = false := by
  decide

/-- C9 (amended): `isMeetingValid` returns false for a falsy or `'static'`
meeting id without any network activity (neither token acquisition nor
lookup); returns false without issuing the lookup when no access token can be
obtained; and otherwise issues the lookup and returns: on a success response,
true exactly when the body carries a truthy `id`; on an error response, false
exactly when the error indicates a missing/expired meeting (body code 3001 or
HTTP status 404), and true (fail-open) on any other error. -/
theorem isMeetingValid_characterization :
    (∀ token lookup, isMeetingValid token lookup none =
      { valid := false, queriedToken := false, queriedMeeting := false }) ∧
    (∀ token lookup mid, mid = "" ∨ mid = "static" →
      isMeetingValid token lookup (some mid) =
        { valid := false, queriedToken := false, queriedMeeting := false }) ∧
    (∀ lookup mid, ¬(mid = "" ∨ mid = "static") →
      isMeetingValid none lookup (some mid) =
        { valid := false, queriedToken := true, queriedMeeting := false }) ∧
    (∀ tok mid dataId, ¬(mid = "" ∨ mid = "static") →
      isMeetingValid (some tok) (.ok dataId) (some mid) =
        { valid := (match dataId with | some s => s ≠ "" | none => false),
          queriedToken := true, queriedMeeting := true }) ∧
    (∀ tok mid status code, ¬(mid = "" ∨ mid = "static") →
      isMeetingValid (some tok) (.err status code) (some mid) =
        { valid := ¬(code = some 3001 ∨ status = some 404),
          queriedToken := true, queriedMeeting := true }) := by
  refine ⟨fun token lookup => rfl,
          fun token lookup mid h => by simp [isMeetingValid, h],
          fun lookup mid h => by simp [isMeetingValid, h],
          fun tok mid dataId h => by simp [isMeetingValid, h],
          fun tok mid status code h => ?_⟩
  by_cases hc : code = some 3001 ∨ status = some 404 <;>
    simp [isMeetingValid, h, hc]

/-- C9 witness. -/
theorem isMeetingValid_characterization_witness :
    (isMeetingValid (some "tok") (.ok (some "77")) none =
      { valid := false, queriedToken := false, queriedMeeting := false }) ∧
    (isMeetingValid (some "tok") (.ok (some "77")) (some "static") =
      { valid := false, queriedToken := false, queriedMeeting := false }) ∧
    (isMeetingValid (some "tok") (.err none (some 3001)) (some "880")  =
      { valid := false, queriedToken := true, queriedMeeting := true }) ∧
    (isMeetingValid (some "tok") (.err (some 500) none) (some "880") =
      { valid := true, queriedToken := true, queriedMeeting := true }) :=
  ⟨isMeetingValid_characterization.1 (some "tok") (.ok (some "77")),
   isMeetingValid_characterization.2.1 (some "tok") (.ok (some "77")) "static"
     (Or.inr rfl),
   by
    have h := isMeetingValid_characterization.2.2.2.2 "tok" "880" none (some 3001)
      (by simp)
    simpa using h,
   by
    have h := isMeetingValid_characterization.2.2.2.2 "tok" "880" (some 500) none
      (by simp)
    simpa using h⟩

/-- C5 witness. -/
theorem createOrder_success_witness :
    ∃ enr : Enrollment,
      createOrder "key" "enr" (some "order_1") 7
          [] { userId := some "u1", courseId := some "c1", amount := some 50000,
               currency := none, customerEmail := some "u@x.com",
               customerContact := none, notes := [] } =
        (200, some { orderId := "order_1", key := "key", amount := 50000,
                     currency := "INR", enrollmentId := "enr" },
         setDoc [] "enr" enr) ∧
      docGet (setDoc [] "enr" enr) "enr" = some enr ∧
      enr.status = "Pending" ∧ enr.amount = 50000 ∧ enr.enrollmentId = "enr" :=
  createOrder_success "key" "enr" "order_1" 7 [] _ 50000 (by decide) (by decide) rfl
    (by decide) (by decide)

end PaymentServer
